import Mathlib

/-!
Verification of the question-editor module of Course Builder
(modules/dashboard/question_editor.py): form validation, string-to-number
coercion, duplicate-description detection, and the GIFT bulk-import
pipeline.  Python runtime primitives (str.strip, int(), long(), float(),
str() on integers, dict access, truthiness) are embedded as executable
Lean functions; handler methods are embedded as pure functions threading
the error list and, for the GIFT PUT handler, an explicit datastore state.
-/

set_option autoImplicit false

namespace QuestionEditor

/-! ## Python runtime primitives -/

/-- Whitespace characters recognised by Python str.strip with no
arguments: space, tab, linefeed, return, vertical tab, formfeed. -/
def pyIsSpace (c : Char) : Bool :=
  c = ' ' || c = '\t' || c = '\n' || c = '\r' || c = '\x0b' || c = '\x0c'

/-- Both-ends whitespace strip on character lists. -/
def pyStripChars (cs : List Char) : List Char :=
  ((cs.dropWhile pyIsSpace).reverse.dropWhile pyIsSpace).reverse

/-- Python str.strip(): remove leading and trailing whitespace. -/
def pyStrip (s : String) : String :=
  String.mk (pyStripChars s.data)

/-- Decimal digit character for a value below ten. -/
def digitChar (n : Nat) : Char :=
  Char.ofNat (48 + n)

/-- Value of a list of decimal digit characters, most significant first. -/
def digitsVal (cs : List Char) : Nat :=
  cs.foldl (fun a c => 10 * a + (c.toNat - 48)) 0

/-- Fuel-driven construction of the decimal digit list of a number, most
significant digit first.  The fuel bounds the number of divisions by ten;
any fuel of at least the digit count gives the same answer. -/
def natDigitsGo : Nat → Nat → List Char → List Char
  | 0, _, acc => acc
  | fuel + 1, n, acc =>
    if n < 10 then digitChar n :: acc
    else natDigitsGo fuel (n / 10) (digitChar (n % 10) :: acc)

/-- Python str() of a nonnegative integer: its decimal digits. -/
def natStr (n : Nat) : String :=
  String.mk (natDigitsGo (n + 1) n [])

/-- Python str() of an integer. -/
def intStr : Int → String
  | Int.ofNat n => natStr n
  | Int.negSucc n => String.mk ('-' :: (natStr (n + 1)).data)

/-- Optional leading sign of a Python numeric literal. -/
def pySign : List Char → Bool × List Char
  | '+' :: cs => (false, cs)
  | '-' :: cs => (true, cs)
  | cs => (false, cs)

/-- Python int()/long() applied to a string: optional surrounding
whitespace, an optional sign, then one or more decimal digits and nothing
else; any other shape raises ValueError, modelled as none. -/
def pyInt (s : String) : Option Int :=
  let cs := pyStripChars s.data
  let (neg, ds) := pySign cs
  if ds ≠ [] ∧ ds.all Char.isDigit then
    some (if neg then -(digitsVal ds : Int) else (digitsVal ds : Int))
  else
    none

/-- Python long() coincides with int() on strings of this size. -/
def pyLong (s : String) : Option Int :=
  pyInt s

/-- Result of a successful Python float() conversion.  Finite values are
kept exactly as an unreduced numerator/denominator pair; the claims under
check depend only on which strings convert, never on rounding. -/
inductive PyNum where
  | finite (num : Int) (den : Nat)
  | infty (neg : Bool)
  | nan
  deriving DecidableEq

/-- Signed mantissa digits and exponent to an exact fraction. -/
def pyFloatVal (neg : Bool) (ip fp : List Char) (ex : Int) : PyNum :=
  let base : Nat := digitsVal ip * 10 ^ fp.length + digitsVal fp
  let num : Int := if neg then -(base : Int) else (base : Int)
  match ex with
  | Int.ofNat e => PyNum.finite (num * 10 ^ e) (10 ^ fp.length)
  | Int.negSucc e => PyNum.finite num (10 ^ fp.length * 10 ^ (e + 1))

/-- Exponent part of a float literal: e or E, optional sign, digits. -/
def pyFloatExp (cs : List Char) : Option Int :=
  match cs with
  | [] => some 0
  | e :: rest =>
    if e = 'e' ∨ e = 'E' then
      let (eneg, ds) := pySign rest
      if ds ≠ [] ∧ ds.all Char.isDigit then
        some (if eneg then -(digitsVal ds : Int) else (digitsVal ds : Int))
      else none
    else none

/-- Python float() applied to a string: optional surrounding whitespace
and sign, then inf, infinity or nan (any case), or a decimal mantissa
with at least one digit and an optional exponent; anything else raises
ValueError, modelled as none. -/
def pyFloat (s : String) : Option PyNum :=
  let cs := pyStripChars s.data
  let (neg, body) := pySign cs
  let lower := body.map Char.toLower
  if lower = ['i', 'n', 'f'] ∨ lower = "infinity".data then
    some (PyNum.infty neg)
  else if lower = ['n', 'a', 'n'] then
    some PyNum.nan
  else
    let (ip, rest) := body.span Char.isDigit
    let (fp, rest2) :=
      match rest with
      | '.' :: t => t.span Char.isDigit
      | _ => ([], rest)
    let hasPoint := match rest with
      | '.' :: _ => true
      | _ => false
    if ip = [] ∧ fp = [] then none
    else
      match pyFloatExp (if hasPoint then rest2 else rest) with
      | some ex => some (pyFloatVal neg ip fp ex)
      | none => none

end QuestionEditor

namespace QuestionEditor

example : pyStrip "  a b\t\n" = "a b" := by decide
example : pyStrip "" = "" := by decide
example : natStr 0 = "0" := by decide
example : natStr 407 = "407" := by decide
example : intStr (-12) = "-12" := by decide
example : pyInt " 42 " = some 42 := by decide
example : pyInt "+7" = some 7 := by decide
example : pyInt "-0" = some 0 := by decide
example : pyInt "4.0" = none := by decide
example : pyInt "" = none := by decide
example : pyInt "12a" = none := by decide
example : pyFloat "1.5" = some (PyNum.finite 15 10) := by decide
example : pyFloat " -2e1 " = some (PyNum.finite (-20) 1) := by decide
example : pyFloat ".5" = some (PyNum.finite 5 10) := by decide
example : pyFloat "5." = some (PyNum.finite 5 1) := by decide
example : pyFloat "." = none := by decide
example : pyFloat "" = none := by decide
example : pyFloat "abc" = none := by decide
example : pyFloat "1e" = none := by decide
example : pyFloat "INF" = some (PyNum.infty false) := by decide
example : pyFloat "-Infinity" = some (PyNum.infty true) := by decide
example : pyFloat "nan" = some PyNum.nan := by decide
example : pyFloat "1_0" = none := by decide

/-! ## Properties of the decimal rendering -/

theorem natDigitsGo_fuel : ∀ f g n : Nat, ∀ acc : List Char, n < f → n < g →
    natDigitsGo f n acc = natDigitsGo g n acc := by
  intro f
  induction f with
  | zero => intro g n acc hf; omega
  | succ f ih =>
    intro g n acc hf hg
    cases g with
    | zero => omega
    | succ g =>
      simp only [natDigitsGo]
      by_cases h : n < 10
      · simp [h]
      · simp only [if_neg h]
        exact ih g (n / 10) _ (by omega) (by omega)

theorem natDigitsGo_append : ∀ f n : Nat, ∀ acc : List Char, n < f →
    natDigitsGo f n acc = natDigitsGo f n [] ++ acc := by
  intro f
  induction f with
  | zero => intro n acc hf; omega
  | succ f ih =>
    intro n acc hf
    simp only [natDigitsGo]
    by_cases h : n < 10
    · simp [h]
    · simp only [if_neg h]
      rw [ih (n / 10) _ (by omega), ih (n / 10) [digitChar (n % 10)] (by omega),
        List.append_assoc]
      rfl

theorem digitChar_toNat : ∀ n : Nat, n < 10 → (digitChar n).toNat = 48 + n := by
  intro n h
  interval_cases n <;> decide

theorem digitChar_isDigit : ∀ n : Nat, n < 10 → (digitChar n).isDigit = true := by
  intro n h
  interval_cases n <;> decide

theorem digitsVal_append_singleton (cs : List Char) (c : Char) :
    digitsVal (cs ++ [c]) = 10 * digitsVal cs + (c.toNat - 48) := by
  simp [digitsVal, List.foldl_append]

theorem digitsVal_natDigitsGo : ∀ n : Nat, digitsVal (natDigitsGo (n + 1) n []) = n := by
  intro n
  induction n using Nat.strong_induction_on with
  | _ n ih =>
    by_cases h : n < 10
    · simp only [natDigitsGo, if_pos h, digitsVal, List.foldl]
      rw [digitChar_toNat n h]
      omega
    · have hrec : natDigitsGo (n + 1) n [] =
          natDigitsGo (n / 10 + 1) (n / 10) [] ++ [digitChar (n % 10)] := by
        conv_lhs => rw [natDigitsGo]
        rw [if_neg h, natDigitsGo_append n (n / 10) _ (by omega),
          natDigitsGo_fuel n (n / 10 + 1) (n / 10) [] (by omega) (by omega)]
      rw [hrec, digitsVal_append_singleton, ih (n / 10) (by omega),
        digitChar_toNat (n % 10) (by omega)]
      omega

theorem natStr_inj : ∀ m n : Nat, natStr m = natStr n → m = n := by
  intro m n h
  have hd : natDigitsGo (m + 1) m [] = natDigitsGo (n + 1) n [] :=
    congrArg String.data h
  have := digitsVal_natDigitsGo m
  rw [hd, digitsVal_natDigitsGo n] at this
  omega

theorem natDigitsGo_all_digits : ∀ f n : Nat, ∀ acc : List Char,
    (∀ c ∈ acc, c.isDigit = true) → ∀ c ∈ natDigitsGo f n acc, c.isDigit = true := by
  intro f
  induction f with
  | zero => intro n acc hacc; exact hacc
  | succ f ih =>
    intro n acc hacc c hc
    simp only [natDigitsGo] at hc
    by_cases h : n < 10
    · rw [if_pos h] at hc
      rcases List.mem_cons.mp hc with h1 | h1
      · rw [h1]; exact digitChar_isDigit n h
      · exact hacc c h1
    · rw [if_neg h] at hc
      refine ih (n / 10) _ ?_ c hc
      intro d hd
      rcases List.mem_cons.mp hd with h1 | h1
      · rw [h1]; exact digitChar_isDigit (n % 10) (by omega)
      · exact hacc d h1

theorem natStr_all_digits (n : Nat) : ∀ c ∈ (natStr n).data, c.isDigit = true :=
  natDigitsGo_all_digits (n + 1) n [] (by intro c hc; cases hc)

theorem data_append (s t : String) : (s ++ t).data = s.data ++ t.data := rfl

theorem string_mk_inj {a b : List Char} (h : String.mk a = String.mk b) : a = b :=
  congrArg String.data h

/-! ## Error messages emitted by the validators -/

def descriptionCollisionMsg : String :=
  "The description must be different from existing questions."

def emptyBodyMsg : String := "The question must have a non-empty body."

def emptyDescriptionMsg : String := "The description must be non-empty."

def noChoicesMsg : String := "The question must have at least one choice."

def noAnswersMsg : String := "The question must have at least one answer."

def rowsWholeMsg : String := "Rows must be a whole number"

def rowsPositiveMsg : String := "Rows must be a positive whole number"

def columnsWholeMsg : String := "Columns must be a whole number"

def columnsPositiveMsg : String := "Columns must be a positive whole number"

def groupCollisionMsg : String := "Non-unique group description."

def choiceNoTextMsg (n : Nat) : String :=
  "Choice " ++ natStr n ++ " has no response text."

def choiceScoreMsg (n : Nat) : String :=
  "Choice " ++ natStr n ++ " must have a numeric score."

def answerNoTextMsg (n : Nat) : String :=
  "Answer " ++ natStr n ++ " has no response text."

def answerScoreMsg (n : Nat) : String :=
  "Answer " ++ natStr n ++ " must have a numeric score."

/-! ## BaseQuestionRESTHandler.validate_no_description_collision

QuestionDAO.get_all returns stored question records carrying an id and a
description. -/

structure StoredQuestion where
  id : Int
  description : String
  deriving DecidableEq

/-- One step of the set comprehension filter
`not key or q.id != long(key)`: none models the ValueError that long()
raises on a nonempty key that is not an integer literal. -/
def condInclude (key : String) (q : StoredQuestion) : Option Bool :=
  if key = "" then some true
  else
    match pyLong key with
    | none => none
    | some k => some (decide (q.id ≠ k))

/-- The descriptions collected by the comprehension in
validate_no_description_collision, in iteration order. -/
def collisionDescriptions : List StoredQuestion → String → Option (List String)
  | [], _ => some []
  | q :: qs, key =>
    match condInclude key q with
    | none => none
    | some b =>
      match collisionDescriptions qs key with
      | none => none
      | some rest => some (if b then q.description :: rest else rest)

/-- BaseQuestionRESTHandler.validate_no_description_collision: appends the
collision error when the description is already used by a stored question
other than the one being edited; none models an uncaught ValueError from
long(key). -/
def validate_no_description_collision (description key : String) (errors : List String)
    (allQuestions : List StoredQuestion) : Option (List String) :=
  match collisionDescriptions allQuestions key with
  | none => none
  | some descriptions =>
    some (if description ∈ descriptions then errors ++ [descriptionCollisionMsg] else errors)

/-! ## BaseQuestionRESTHandler.sanitize_input_dict and
McQuestionRESTHandler.transform_for_editor_hook, over a JSON-style dict -/

inductive PyVal where
  | str (s : String)
  | int (n : Int)
  | boolean (b : Bool)
  | null
  deriving DecidableEq

/-- Python truthiness of the modelled values. -/
def PyVal.truthy : PyVal → Bool
  | .str s => !s.isEmpty
  | .int n => decide (n ≠ 0)
  | .boolean b => b
  | .null => false

abbrev PyDict := List (String × PyVal)

/-- Python dict lookup, none on a missing key. -/
def dictGet (d : PyDict) (k : String) : Option PyVal :=
  (d.find? (fun p => p.1 == k)).map Prod.snd

/-- Python dict item assignment: replace the stored value when the key is
present, append the binding otherwise. -/
def dictSet (d : PyDict) (k : String) (v : PyVal) : PyDict :=
  if d.any (fun p => p.1 == k) then d.map (fun p => if p.1 == k then (k, v) else p)
  else d ++ [(k, v)]

/-- Python dict.get: missing keys give None. -/
def dictGetDefault (d : PyDict) (k : String) : PyVal :=
  (dictGet d k).getD PyVal.null

/-- BaseQuestionRESTHandler.sanitize_input_dict: strip the description
field in place.  The none cases model the KeyError or AttributeError that
a missing or non-string description raises. -/
def sanitize_input_dict (json_dict : PyDict) : Option PyDict :=
  match dictGet json_dict "description" with
  | some (PyVal.str s) => some (dictSet json_dict "description" (PyVal.str (pyStrip s)))
  | _ => none

/-- McQuestionRESTHandler.transform_for_editor_hook: deep-copy the dict
and replace multiple_selections by the string true or false according to
the truthiness of the original value (absent reads as None). -/
def transform_for_editor_hook (q_dict : PyDict) : PyDict :=
  dictSet q_dict "multiple_selections"
    (PyVal.str (if (dictGetDefault q_dict "multiple_selections").truthy then "true" else "false"))

/-! ## McQuestionRESTHandler._validate15 -/

/-- A score field value: the submitted string, or the float it was
coerced to. -/
inductive SVal where
  | str (s : String)
  | num (v : PyNum)
  deriving DecidableEq

structure McChoice where
  score : String
  text : String
  feedback : String
  deriving DecidableEq

structure McChoiceCoerced where
  score : SVal
  text : String
  feedback : String
  deriving DecidableEq

structure McQuestionDict where
  version : String
  question : String
  description : String
  multiple_selections : Bool
  choices : List McChoice
  deriving DecidableEq

structure McQuestionCoerced where
  version : String
  question : String
  description : String
  multiple_selections : Bool
  choices : List McChoiceCoerced
  deriving DecidableEq

/-- The per-choice loop of McQuestionRESTHandler._validate15: flag empty
response text, then coerce the score string to a float in place, flagging
scores that do not parse and leaving them as the original string.  The
numbering n of the messages is index + 1. -/
def mcValidateChoices : List McChoice → Nat → List String →
    List McChoiceCoerced × List String
  | [], _, errors => ([], errors)
  | c :: cs, n, errors =>
    let errors1 := if pyStrip c.text = "" then errors ++ [choiceNoTextMsg n] else errors
    let step : McChoiceCoerced × List String :=
      match pyFloat c.score with
      | some v => (⟨SVal.num v, c.text, c.feedback⟩, errors1)
      | none => (⟨SVal.str c.score, c.text, c.feedback⟩, errors1 ++ [choiceScoreMsg n])
    let rest := mcValidateChoices cs (n + 1) step.2
    (step.1 :: rest.1, rest.2)

/-- McQuestionRESTHandler._validate15: non-empty body, non-empty
description, no description collision, at least one choice, then the
per-choice checks; none models the ValueError long(key) raises inside the
collision check. -/
def mc_validate15 (d : McQuestionDict) (key : String) (errors : List String)
    (allQuestions : List StoredQuestion) : Option (McQuestionCoerced × List String) :=
  let e1 := if pyStrip d.question = "" then errors ++ [emptyBodyMsg] else errors
  let e2 := if d.description = "" then e1 ++ [emptyDescriptionMsg] else e1
  match validate_no_description_collision d.description key e2 allQuestions with
  | none => none
  | some e3 =>
    let e4 := if d.choices = [] then e3 ++ [noChoicesMsg] else e3
    let res := mcValidateChoices d.choices 1 e4
    some (⟨d.version, d.question, d.description, d.multiple_selections, res.1⟩, res.2)

/-! ## SaQuestionRESTHandler._validate15 -/

/-- A rows or columns field value: the submitted string, or the integer
it was coerced to. -/
inductive IVal where
  | str (s : String)
  | int (n : Int)
  deriving DecidableEq

structure SaGrader where
  score : String
  matcher : String
  response : String
  feedback : String
  deriving DecidableEq

structure SaQuestionDict where
  version : String
  question : String
  description : String
  hint : String
  defaultFeedback : String
  rows : String
  columns : String
  graders : List SaGrader
  deriving DecidableEq

structure SaQuestionCoerced where
  version : String
  question : String
  description : String
  hint : String
  defaultFeedback : String
  rows : IVal
  columns : IVal
  graders : List SaGrader
  deriving DecidableEq

def GRADER_TYPES : List (String × String) :=
  [("case_insensitive", "Case insensitive string match"),
   ("regex", "Regular expression"),
   ("numeric", "Numeric")]

/-- The per-grader loop of SaQuestionRESTHandler._validate15: assert the
matcher is a known grader type (none models an AssertionError), flag
empty response text and non-numeric scores; scores are checked but not
coerced. -/
def saValidateGraders : List SaGrader → Nat → List String → Option (List String)
  | [], _, errors => some errors
  | g :: gs, n, errors =>
    if g.matcher ∈ GRADER_TYPES.map Prod.fst then
      let errors1 := if pyStrip g.response = "" then errors ++ [answerNoTextMsg n] else errors
      let errors2 :=
        match pyFloat g.score with
        | some _ => errors1
        | none => errors1 ++ [answerScoreMsg n]
      saValidateGraders gs (n + 1) errors2
    else none

/-- SaQuestionRESTHandler._validate15: non-empty body, non-empty
description, no description collision, rows and columns coerced in place
to positive integers, at least one grader, then the per-grader checks. -/
def sa_validate15 (d : SaQuestionDict) (key : String) (errors : List String)
    (allQuestions : List StoredQuestion) : Option (SaQuestionCoerced × List String) :=
  let e1 := if pyStrip d.question = "" then errors ++ [emptyBodyMsg] else errors
  let e2 := if d.description = "" then e1 ++ [emptyDescriptionMsg] else e1
  match validate_no_description_collision d.description key e2 allQuestions with
  | none => none
  | some e3 =>
    let rowsStep : IVal × List String :=
      match pyInt d.rows with
      | some r => (IVal.int r, if r ≤ 0 then e3 ++ [rowsPositiveMsg] else e3)
      | none => (IVal.str d.rows, e3 ++ [rowsWholeMsg])
    let colsStep : IVal × List String :=
      match pyInt d.columns with
      | some r => (IVal.int r, if r ≤ 0 then rowsStep.2 ++ [columnsPositiveMsg] else rowsStep.2)
      | none => (IVal.str d.columns, rowsStep.2 ++ [columnsWholeMsg])
    let e6 := if d.graders = [] then colsStep.2 ++ [noAnswersMsg] else colsStep.2
    match saValidateGraders d.graders 1 e6 with
    | none => none
    | some e7 =>
      some (⟨d.version, d.question, d.description, d.hint, d.defaultFeedback,
        rowsStep.1, colsStep.1, d.graders⟩, e7)

/-! ## GiftQuestionRESTHandler: the bulk-import pipeline -/

/-- One entry of the items list of a question group: a question id
rendered as a string and a weight. -/
structure QuestionGroupItem where
  question : String
  weight : Rat
  deriving DecidableEq

/-- A question group dict as assembled by create_group. -/
structure QuestionGroupDict where
  version : String
  description : String
  introduction : String
  items : List QuestionGroupItem
  deriving DecidableEq

/-- The type slot of a question dict: the string produced by the GIFT
parser, or one of the numeric type codes the DTO layer writes back. -/
inductive QuestionTypeVal where
  | str (s : String)
  | mc
  | sa
  deriving DecidableEq

/-- A question dict produced by the external GIFT parser: a type tag, a
description, a version slot, and the remaining body fields kept abstract. -/
structure GiftQuestion where
  qtype : QuestionTypeVal
  description : String
  version : String
  body : String
  deriving DecidableEq

/-- Modelled from the spec: QuestionDTO from models.models is not under
src; the spec describes a Question record with id, type, description,
body fields and version, whose type slot lives in the wrapped dict. -/
structure QuestionDTO where
  id : Option Int
  qdict : GiftQuestion
  deriving DecidableEq

/-- Modelled from the spec: the numeric code QuestionDTO.MULTIPLE_CHOICE
of models.models. -/
def QuestionDTO.MULTIPLE_CHOICE : QuestionTypeVal := QuestionTypeVal.mc

/-- Modelled from the spec: the numeric code QuestionDTO.SHORT_ANSWER of
models.models. -/
def QuestionDTO.SHORT_ANSWER : QuestionTypeVal := QuestionTypeVal.sa

/-- The type property of a DTO reads the type slot of the wrapped dict. -/
def QuestionDTO.qtype (dto : QuestionDTO) : QuestionTypeVal :=
  dto.qdict.qtype

/-- Assigning the type property writes the type slot of the wrapped dict. -/
def QuestionDTO.setType (dto : QuestionDTO) (t : QuestionTypeVal) : QuestionDTO :=
  { dto with qdict := { dto.qdict with qtype := t } }

/-- Modelled from the spec: the schema version constant QuestionDAO.VERSION
of models.models; the claims depend only on it being one fixed string. -/
def QuestionDAO.VERSION : String := "1.5"

/-- The datastore state seen by the GIFT PUT handler: stored questions
with their ids, stored question groups, and the next free question id. -/
structure GiftWorld where
  questions : List (Int × GiftQuestion)
  groups : List QuestionGroupDict
  nextQuestionId : Int
  deriving DecidableEq

/-- GiftQuestionRESTHandler.convert_to_dtos: set each parsed question
dict version to QuestionDAO.VERSION, wrap it in a DTO with no id, and
replace the parsed type tag by the multiple-choice code exactly on
multi_choice and by the short-answer code otherwise. -/
def convert_to_dtos (questions : List GiftQuestion) : List QuestionDTO :=
  questions.map (fun question =>
    let question := { question with version := QuestionDAO.VERSION }
    let dto : QuestionDTO := ⟨none, question⟩
    if dto.qtype = QuestionTypeVal.str "multi_choice" then
      dto.setType QuestionDTO.MULTIPLE_CHOICE
    else
      dto.setType QuestionDTO.SHORT_ANSWER)

/-- Modelled from the spec: QuestionDAO.save_all of models.models
persists the DTO dicts, assigning consecutive fresh ids, and returns the
new ids. -/
def QuestionDAO.save_all (w : GiftWorld) (dtos : List QuestionDTO) : GiftWorld × List Int :=
  let ids := (List.range dtos.length).map (fun i => w.nextQuestionId + i)
  ({ w with
      questions := w.questions ++ List.zip ids (dtos.map QuestionDTO.qdict),
      nextQuestionId := w.nextQuestionId + dtos.length }, ids)

/-- Modelled from the spec: QuestionGroupDAO.create_question_group of
models.models stores the group dict, raising CollisionError (the error
holds str(e)) when the description duplicates a stored group. -/
def QuestionGroupDAO.create_question_group (group : QuestionGroupDict) (w : GiftWorld) :
    Except String GiftWorld :=
  if group.description ∈ w.groups.map QuestionGroupDict.description then
    Except.error ("Collision of description: " ++ group.description)
  else
    Except.ok { w with groups := w.groups ++ [group] }

/-- GiftQuestionRESTHandler.validate_question_descriptions: flag each
imported question whose description is already used by a stored question. -/
def validate_question_descriptions (questions : List GiftQuestion) (errors : List String)
    (w : GiftWorld) : List String :=
  let descriptions := w.questions.map (fun p => p.2.description)
  questions.foldl
    (fun errs question =>
      if question.description ∈ descriptions then errs ++ [descriptionCollisionMsg] else errs)
    errors

/-- GiftQuestionRESTHandler.validate_group_description: flag a group
description already used by a stored group. -/
def validate_group_description (group_description : String) (errors : List String)
    (w : GiftWorld) : List String :=
  if group_description ∈ w.groups.map QuestionGroupDict.description then
    errors ++ [groupCollisionMsg]
  else errors

/-- The schema-coerced GIFT payload: version, group description, and the
raw GIFT text. -/
structure GiftPayload where
  version : String
  description : String
  questions : String
  deriving DecidableEq

/-- The group dict literal built by GiftQuestionRESTHandler.create_group. -/
def group_dict (description : String) (question_ids : List Int) : QuestionGroupDict :=
  { version := QuestionDAO.VERSION,
    description := description,
    introduction := "",
    items := question_ids.map (fun x => { question := intStr x, weight := 1 }) }

/-- GiftQuestionRESTHandler.create_group: build the group dict and hand
it to QuestionGroupDAO.create_question_group. -/
def create_group (description : String) (question_ids : List Int) (w : GiftWorld) :
    Except String GiftWorld :=
  QuestionGroupDAO.create_question_group (group_dict description question_ids) w

/-- The observable outcomes of GiftQuestionRESTHandler.put. -/
inductive PutOutcome where
  | xsrfFailure
  | accessDenied
  | validationError (msg : String)
  | saved (msg : String)
  deriving DecidableEq

/-- GiftQuestionRESTHandler.put, from the XSRF check on.  The schema
coercion of the payload (transforms.json_to_dict, which raises ValueError
on bad input) and the external GIFT parser (which raises
gift.ParseError) enter as the already-computed Except values; error
carries str(e).  Exceptions reach the handler except-clauses, which
append str(e) to the errors accumulated so far and fall through to
validation_error. -/
def put (xsrfOk isAdmin : Bool) (payloadDict : Except String GiftPayload)
    (parseQuestions : String → Except String (List GiftQuestion)) (w : GiftWorld) :
    GiftWorld × PutOutcome :=
  if !xsrfOk then (w, PutOutcome.xsrfFailure)
  else if !isAdmin then (w, PutOutcome.accessDenied)
  else
    match payloadDict with
    | Except.error e => (w, PutOutcome.validationError (String.intercalate "\n" ([] ++ [e])))
    | Except.ok python_dict =>
      match parseQuestions python_dict.questions with
      | Except.error e => (w, PutOutcome.validationError (String.intercalate "\n" ([] ++ [e])))
      | Except.ok questions =>
        let errors := validate_question_descriptions questions [] w
        let errors := validate_group_description python_dict.description errors w
        if errors = [] then
          let saveRes := QuestionDAO.save_all w (convert_to_dtos questions)
          match create_group python_dict.description saveRes.2 saveRes.1 with
          | Except.ok w2 =>
            (w2, PutOutcome.saved ("Saved: " ++ python_dict.description ++ "."))
          | Except.error e =>
            (saveRes.1, PutOutcome.validationError (String.intercalate "\n" (errors ++ [e])))
        else (w, PutOutcome.validationError (String.intercalate "\n" errors))

/-! ## Dictionary lemmas -/

theorem find?_replace (d : PyDict) (k : String) (v : PyVal)
    (h : d.any (fun p => p.1 == k) = true) :
    (d.map (fun p => if p.1 == k then (k, v) else p)).find? (fun p => p.1 == k) = some (k, v) := by
  induction d with
  | nil => cases h
  | cons p ps ih =>
    by_cases hp : (p.1 == k) = true
    · rw [List.map_cons, if_pos hp, List.find?_cons_of_pos _ (by simp)]
    · have hfalse : (p.1 == k) = false := by simpa using hp
      have hps : ps.any (fun p => p.1 == k) = true := by
        simpa [List.any_cons, hfalse] using h
      rw [List.map_cons, if_neg hp, List.find?_cons_of_neg _ (by simp [hfalse])]
      exact ih hps

theorem find?_replace_other (d : PyDict) (k k' : String) (v : PyVal) (h : k' ≠ k) :
    (d.map (fun p => if p.1 == k then (k, v) else p)).find? (fun p => p.1 == k') =
      d.find? (fun p => p.1 == k') := by
  induction d with
  | nil => rfl
  | cons p ps ih =>
    by_cases hp : (p.1 == k) = true
    · have hpk : p.1 = k := by simpa using hp
      have hpk' : (p.1 == k') = false := by
        rw [hpk]
        exact beq_eq_false_iff_ne.mpr (fun hkk => h hkk.symm)
      have hkk' : (k == k') = false := beq_eq_false_iff_ne.mpr (fun hkk => h hkk.symm)
      rw [List.map_cons, if_pos hp, List.find?_cons_of_neg _ (by simp [hkk']),
        List.find?_cons_of_neg _ (by simp [hpk']), ih]
    · cases hfind : (p.1 == k') with
      | true =>
        rw [List.map_cons, if_neg hp, List.find?_cons_of_pos _ (by simp [hfind]),
          List.find?_cons_of_pos _ (by simp [hfind])]
      | false =>
        rw [List.map_cons, if_neg hp, List.find?_cons_of_neg _ (by simp [hfind]),
          List.find?_cons_of_neg _ (by simp [hfind]), ih]

theorem dictGet_dictSet_self (d : PyDict) (k : String) (v : PyVal) :
    dictGet (dictSet d k v) k = some v := by
  unfold dictSet
  by_cases h : d.any (fun p => p.1 == k) = true
  · rw [if_pos h]
    unfold dictGet
    rw [find?_replace d k v h]
    rfl
  · rw [if_neg h]
    unfold dictGet
    have hnone : d.find? (fun p => p.1 == k) = none := by
      rw [List.find?_eq_none]
      intro x hx hpx
      exact h (List.any_eq_true.mpr ⟨x, hx, hpx⟩)
    rw [List.find?_append, hnone]
    simp [List.find?]

theorem dictGet_dictSet_other (d : PyDict) (k k' : String) (v : PyVal) (h : k' ≠ k) :
    dictGet (dictSet d k v) k' = dictGet d k' := by
  unfold dictSet
  by_cases hany : d.any (fun p => p.1 == k) = true
  · rw [if_pos hany]
    unfold dictGet
    rw [find?_replace_other d k k' v h]
  · rw [if_neg hany]
    unfold dictGet
    rw [List.find?_append]
    have hlast : List.find? (fun p => p.1 == k') [(k, v)] = none := by
      simp [List.find?, beq_eq_false_iff_ne.mpr (fun hkk => h hkk.symm)]
    rw [hlast]
    cases List.find? (fun p => p.1 == k') d <;> rfl

/-! ## C9 and C10 -/

/-- C9: transform_for_editor_hook returns a dict that agrees with its
input on every key other than multiple_selections, and maps
multiple_selections to the string true when the original value (None if
absent) is truthy and to the string false otherwise; the input dict is
not mutated (the embedding is a pure function on the copied dict). -/
theorem transform_for_editor_hook_spec (q_dict : PyDict) (k : String) :
    dictGet (transform_for_editor_hook q_dict) k =
      if k = "multiple_selections" then
        some (PyVal.str
          (if (dictGetDefault q_dict "multiple_selections").truthy then "true" else "false"))
      else dictGet q_dict k := by
  unfold transform_for_editor_hook
  by_cases h : k = "multiple_selections"
  · rw [if_pos h, h, dictGet_dictSet_self]
  · rw [if_neg h, dictGet_dictSet_other _ _ _ _ h]

/-- C10: on a dict whose description key holds a string,
sanitize_input_dict replaces the description by its stripped value and
leaves every other key unchanged. -/
theorem sanitize_input_dict_spec (json_dict : PyDict) (s : String)
    (h : dictGet json_dict "description" = some (PyVal.str s)) :
    ∃ d', sanitize_input_dict json_dict = some d' ∧
      dictGet d' "description" = some (PyVal.str (pyStrip s)) ∧
      ∀ k, k ≠ "description" → dictGet d' k = dictGet json_dict k := by
  refine ⟨dictSet json_dict "description" (PyVal.str (pyStrip s)), ?_, ?_, ?_⟩
  · unfold sanitize_input_dict
    rw [h]
  · exact dictGet_dictSet_self _ _ _
  · intro k hk
    exact dictGet_dictSet_other _ _ _ _ hk

/-- Witness for C10 at a concrete two-key dict. -/
theorem sanitize_input_dict_spec_witness :
    ∃ d', sanitize_input_dict [("description", PyVal.str " a "), ("x", PyVal.int 3)] = some d' ∧
      dictGet d' "description" = some (PyVal.str "a") ∧
      ∀ k, k ≠ "description" →
        dictGet d' k = dictGet [("description", PyVal.str " a "), ("x", PyVal.int 3)] k := by
  obtain ⟨d', h1, h2, h3⟩ :=
    sanitize_input_dict_spec [("description", PyVal.str " a "), ("x", PyVal.int 3)] " a "
      (by decide)
  have hs : pyStrip " a " = "a" := by decide
  rw [hs] at h2
  exact ⟨d', h1, h2, h3⟩

/-! ## C2: the duplicate-description check -/

theorem collisionDescriptions_empty_key (allQuestions : List StoredQuestion) :
    collisionDescriptions allQuestions "" =
      some (allQuestions.map StoredQuestion.description) := by
  induction allQuestions with
  | nil => rfl
  | cons q qs ih =>
    simp only [collisionDescriptions, condInclude, if_pos rfl, ih, List.map_cons]
    rfl

theorem collisionDescriptions_parsed_key (allQuestions : List StoredQuestion)
    (key : String) (k : Int) (hke : key ≠ "") (hpl : pyLong key = some k) :
    collisionDescriptions allQuestions key =
      some (((allQuestions.filter (fun q => decide (q.id ≠ k))).map
        StoredQuestion.description)) := by
  induction allQuestions with
  | nil => rfl
  | cons q qs ih =>
    simp only [collisionDescriptions, condInclude, if_neg hke, hpl, ih, List.filter_cons]
    by_cases hqk : q.id ≠ k
    · simp [hqk]
    · simp [hqk]

/-- C2: validate_no_description_collision appends the collision error
exactly when some stored question has the submitted description and
either the key is empty or that question carries a different id than the
parsed key; otherwise the errors list is returned unchanged.  The
hypothesis excludes the keys on which long(key) itself raises. -/
theorem validate_no_description_collision_spec (description key : String)
    (errors : List String) (allQuestions : List StoredQuestion)
    (hkey : key = "" ∨ (pyLong key).isSome = true) :
    validate_no_description_collision description key errors allQuestions =
      some (if ∃ q ∈ allQuestions, q.description = description ∧
              (key = "" ∨ pyLong key ≠ some q.id)
            then errors ++ [descriptionCollisionMsg] else errors) := by
  by_cases hke : key = ""
  · subst hke
    unfold validate_no_description_collision
    rw [collisionDescriptions_empty_key]
    have hiff : (description ∈ allQuestions.map StoredQuestion.description) ↔
        ∃ q ∈ allQuestions, q.description = description ∧
          ("" = "" ∨ pyLong "" ≠ some q.id) := by
      simp [List.mem_map]
    simp only [hiff]
  · have hs : (pyLong key).isSome = true := hkey.resolve_left hke
    obtain ⟨k, hpl⟩ := Option.isSome_iff_exists.mp hs
    unfold validate_no_description_collision
    rw [collisionDescriptions_parsed_key allQuestions key k hke hpl]
    have hiff : (description ∈
        (allQuestions.filter (fun q => decide (q.id ≠ k))).map StoredQuestion.description) ↔
        ∃ q ∈ allQuestions, q.description = description ∧
          (key = "" ∨ pyLong key ≠ some q.id) := by
      simp only [List.mem_map, List.mem_filter, decide_eq_true_eq]
      constructor
      · rintro ⟨q, ⟨hq, hqk⟩, hd⟩
        refine ⟨q, hq, hd, Or.inr ?_⟩
        rw [hpl]
        intro hsome
        exact hqk (Option.some.inj hsome).symm
      · rintro ⟨q, hq, hd, hcond⟩
        rcases hcond with hcond | hcond
        · exact absurd hcond hke
        · refine ⟨q, ⟨hq, ?_⟩, hd⟩
          rw [hpl] at hcond
          intro hik
          exact hcond (by rw [hik])
    simp only [hiff]

/-- Witness for C2: a stored question with the same description and a
different id triggers the error on a nonempty numeric key. -/
theorem validate_no_description_collision_spec_witness :
    validate_no_description_collision "dup" "2" [] [⟨1, "dup"⟩] =
      some [descriptionCollisionMsg] := by
  rw [validate_no_description_collision_spec "dup" "2" [] [⟨1, "dup"⟩] (Or.inr (by decide))]
  decide

/-! ## C8: batch validation only looks at stored questions -/

/-- C8: validate_question_descriptions compares imported questions only
against the stored ones, so any batch all of whose descriptions are
unused passes unchanged, even when the batch repeats a description. -/
theorem validate_question_descriptions_only_stored (questions : List GiftQuestion)
    (errors : List String) (w : GiftWorld)
    (h : ∀ q ∈ questions, q.description ∉ w.questions.map (fun p => p.2.description)) :
    validate_question_descriptions questions errors w = errors := by
  unfold validate_question_descriptions
  induction questions generalizing errors with
  | nil => rfl
  | cons q qs ih =>
    rw [List.foldl_cons, if_neg (h q (List.mem_cons_self q qs))]
    exact ih errors (fun q' hq' => h q' (List.mem_cons_of_mem q hq'))

/-- Witness for C8: two imported questions sharing one fresh description
pass with no error appended even though they collide with each other. -/
theorem validate_question_descriptions_only_stored_witness :
    validate_question_descriptions
      [⟨QuestionTypeVal.str "multi_choice", "dup", "", ""⟩,
       ⟨QuestionTypeVal.str "essay", "dup", "", ""⟩]
      []
      ⟨[(1, ⟨QuestionTypeVal.mc, "other", "1.5", ""⟩)], [], 2⟩ = [] := by
  exact validate_question_descriptions_only_stored _ _ _ (by decide)

/-! ## C3: the group dict built by create_group -/

/-- C3: create_group hands create_question_group a group dict carrying
the given description, an empty introduction, and one items entry per
question id in input order, each with the id rendered as a string and
weight one. -/
theorem create_group_spec (description : String) (question_ids : List Int) (w : GiftWorld) :
    create_group description question_ids w =
      QuestionGroupDAO.create_question_group (group_dict description question_ids) w ∧
    (group_dict description question_ids).description = description ∧
    (group_dict description question_ids).introduction = "" ∧
    (group_dict description question_ids).items.length = question_ids.length ∧
    ∀ i : Nat, ((group_dict description question_ids).items)[i]? =
      (question_ids[i]?).map (fun x => ⟨intStr x, 1⟩) := by
  refine ⟨rfl, rfl, rfl, ?_, ?_⟩
  · simp [group_dict]
  · intro i
    simp [group_dict]

/-! ## C4: convert_to_dtos -/

/-- C4: convert_to_dtos yields one DTO per parsed question in order,
writes QuestionDAO.VERSION into each question dict, and sets the DTO
type to the multiple-choice code exactly when the parsed type tag is
multi_choice, and to the (distinct) short-answer code otherwise. -/
theorem convert_to_dtos_spec (questions : List GiftQuestion) :
    (convert_to_dtos questions).length = questions.length ∧
    QuestionDTO.MULTIPLE_CHOICE ≠ QuestionDTO.SHORT_ANSWER ∧
    ∀ i : Nat, (convert_to_dtos questions)[i]? = (questions[i]?).map (fun q =>
      ⟨none, { qtype := if q.qtype = QuestionTypeVal.str "multi_choice"
                        then QuestionDTO.MULTIPLE_CHOICE else QuestionDTO.SHORT_ANSWER,
               description := q.description,
               version := QuestionDAO.VERSION,
               body := q.body }⟩) := by
  refine ⟨by simp [convert_to_dtos], by decide, ?_⟩
  intro i
  unfold convert_to_dtos
  rw [List.getElem?_map]
  cases questions[i]? with
  | none => rfl
  | some q =>
    simp only [Option.map_some]
    by_cases hq : q.qtype = QuestionTypeVal.str "multi_choice"
    · simp [hq, QuestionDTO.qtype, QuestionDTO.setType]
    · simp [hq, QuestionDTO.qtype, QuestionDTO.setType]

/-! ## C1: atomicity of the GIFT PUT handler -/

theorem validate_group_description_nil (gd : String) (errs : List String) (w : GiftWorld)
    (h : validate_group_description gd errs w = []) :
    errs = [] ∧ gd ∉ w.groups.map QuestionGroupDict.description := by
  unfold validate_group_description at h
  by_cases hmem : gd ∈ w.groups.map QuestionGroupDict.description
  · rw [if_pos hmem] at h
    exact absurd h (by simp)
  · rw [if_neg hmem] at h
    exact ⟨h, hmem⟩

/-- C1: persistence in GiftQuestionRESTHandler.put is atomic with
respect to validation.  Whenever the response is a validation error the
datastore is unchanged; the datastore changes only on a 200 Saved
response; with the request checks passed, saving happens exactly when
the accumulated validation errors are empty, a nonempty error list
yields the joined validation-error response, and a ValueError from the
schema coercion or a ParseError from the GIFT parser yields a
validation-error response with the datastore unchanged. -/
theorem put_atomic (xsrfOk isAdmin : Bool) (payloadDict : Except String GiftPayload)
    (parseQuestions : String → Except String (List GiftQuestion)) (w : GiftWorld) :
    (∀ m, (put xsrfOk isAdmin payloadDict parseQuestions w).2 = PutOutcome.validationError m →
      (put xsrfOk isAdmin payloadDict parseQuestions w).1 = w) ∧
    ((put xsrfOk isAdmin payloadDict parseQuestions w).1 ≠ w →
      ∃ m, (put xsrfOk isAdmin payloadDict parseQuestions w).2 = PutOutcome.saved m) ∧
    (∀ pd questions, payloadDict = Except.ok pd →
      parseQuestions pd.questions = Except.ok questions →
      xsrfOk = true → isAdmin = true →
      ((validate_group_description pd.description
          (validate_question_descriptions questions [] w) w = []) ↔
        (put xsrfOk isAdmin payloadDict parseQuestions w).2 =
          PutOutcome.saved ("Saved: " ++ pd.description ++ ".")) ∧
      (validate_group_description pd.description
          (validate_question_descriptions questions [] w) w ≠ [] →
        (put xsrfOk isAdmin payloadDict parseQuestions w).2 =
          PutOutcome.validationError (String.intercalate "\n"
            (validate_group_description pd.description
              (validate_question_descriptions questions [] w) w)))) ∧
    (∀ e, payloadDict = Except.error e → xsrfOk = true → isAdmin = true →
      put xsrfOk isAdmin payloadDict parseQuestions w =
        (w, PutOutcome.validationError (String.intercalate "\n" [e]))) ∧
    (∀ pd e, payloadDict = Except.ok pd → parseQuestions pd.questions = Except.error e →
      xsrfOk = true → isAdmin = true →
      put xsrfOk isAdmin payloadDict parseQuestions w =
        (w, PutOutcome.validationError (String.intercalate "\n" [e]))) := by
  by_cases hx : xsrfOk = true
  case neg =>
    have hx' : xsrfOk = false := by
      cases xsrfOk
      · rfl
      · exact absurd rfl hx
    subst hx'
    have hput : put false isAdmin payloadDict parseQuestions w =
        (w, PutOutcome.xsrfFailure) := rfl
    rw [hput]
    refine ⟨?_, ?_, ?_, ?_, ?_⟩ <;> simp
  case pos =>
  subst hx
  by_cases ha : isAdmin = true
  case neg =>
    have ha' : isAdmin = false := by
      cases isAdmin
      · rfl
      · exact absurd rfl ha
    subst ha'
    have hput : put true false payloadDict parseQuestions w =
        (w, PutOutcome.accessDenied) := rfl
    rw [hput]
    refine ⟨?_, ?_, ?_, ?_, ?_⟩ <;> simp
  case pos =>
  subst ha
  cases payloadDict with
  | error e =>
    have hput : put true true (Except.error e) parseQuestions w =
        (w, PutOutcome.validationError (String.intercalate "\n" [e])) := rfl
    rw [hput]
    refine ⟨?_, ?_, ?_, ?_, ?_⟩
    · intro m _
      rfl
    · intro hne
      exact absurd rfl hne
    · intro pd questions hpd
      cases hpd
    · intro e' he' _ _
      cases he'
      rfl
    · intro pd e' hpd
      cases hpd
  | ok pd =>
    cases hparse : parseQuestions pd.questions with
    | error e =>
      have hput : put true true (Except.ok pd) parseQuestions w =
          (w, PutOutcome.validationError (String.intercalate "\n" [e])) := by
        simp [put, hparse]
      rw [hput]
      refine ⟨?_, ?_, ?_, ?_, ?_⟩
      · intro m _
        rfl
      · intro hne
        exact absurd rfl hne
      · intro pd' questions hpd' hparse'
        cases hpd'
        rw [hparse] at hparse'
        cases hparse'
      · intro e' he'
        cases he'
      · intro pd' e' hpd' hparse' _ _
        cases hpd'
        rw [hparse] at hparse'
        cases hparse'
        rfl
    | ok questions =>
      by_cases hE : validate_group_description pd.description
          (validate_question_descriptions questions [] w) w = []
      · obtain ⟨_, hnotmem⟩ := validate_group_description_nil _ _ _ hE
        have hok : create_group pd.description
            (QuestionDAO.save_all w (convert_to_dtos questions)).2
            (QuestionDAO.save_all w (convert_to_dtos questions)).1 =
            Except.ok { (QuestionDAO.save_all w (convert_to_dtos questions)).1 with
              groups := (QuestionDAO.save_all w (convert_to_dtos questions)).1.groups ++
                [group_dict pd.description
                  (QuestionDAO.save_all w (convert_to_dtos questions)).2] } := by
          unfold create_group QuestionGroupDAO.create_question_group
          rw [if_neg ?hne]
          case hne =>
            exact hnotmem
        have hput : put true true (Except.ok pd) parseQuestions w =
            ({ (QuestionDAO.save_all w (convert_to_dtos questions)).1 with
                groups := (QuestionDAO.save_all w (convert_to_dtos questions)).1.groups ++
                  [group_dict pd.description
                    (QuestionDAO.save_all w (convert_to_dtos questions)).2] },
              PutOutcome.saved ("Saved: " ++ pd.description ++ ".")) := by
          simp only [put, Bool.not_true, Bool.false_eq_true, if_false, hparse, hE, if_pos,
            hok]
        rw [hput]
        refine ⟨?_, ?_, ?_, ?_, ?_⟩
        · intro m hm
          cases hm
        · intro _
          exact ⟨_, rfl⟩
        · intro pd' questions' hpd' hparse' _ _
          cases hpd'
          rw [hparse] at hparse'
          cases hparse'
          constructor
          · constructor
            · intro _
              rfl
            · intro _
              exact hE
          · intro hne
            exact absurd hE hne
        · intro e' he'
          cases he'
        · intro pd' e' hpd' hparse' _ _
          cases hpd'
          rw [hparse] at hparse'
          cases hparse'
      · have hput : put true true (Except.ok pd) parseQuestions w =
            (w, PutOutcome.validationError (String.intercalate "\n"
              (validate_group_description pd.description
                (validate_question_descriptions questions [] w) w))) := by
          simp only [put, Bool.not_true, Bool.false_eq_true, if_false, hparse, if_neg hE]
        rw [hput]
        refine ⟨?_, ?_, ?_, ?_, ?_⟩
        · intro m _
          rfl
        · intro hne
          exact absurd rfl hne
        · intro pd' questions' hpd' hparse' _ _
          cases hpd'
          rw [hparse] at hparse'
          cases hparse'
          constructor
          · constructor
            · intro h0
              exact absurd h0 hE
            · intro hsaved
              cases hsaved
          · intro _
            rfl
        · intro e' he'
          cases he'
        · intro pd' e' hpd' hparse' _ _
          cases hpd'
          rw [hparse] at hparse'
          cases hparse'

/-- Witness for C1: a GIFT batch whose single question collides with a
stored description produces a validation error and leaves the datastore
untouched. -/
theorem put_atomic_witness :
    put true true (Except.ok ⟨"1.5", "grp", "text"⟩)
      (fun _ => Except.ok [⟨QuestionTypeVal.str "essay", "dup", "", ""⟩])
      ⟨[(1, ⟨QuestionTypeVal.mc, "dup", "1.5", ""⟩)], [], 2⟩ =
      (⟨[(1, ⟨QuestionTypeVal.mc, "dup", "1.5", ""⟩)], [], 2⟩,
        PutOutcome.validationError descriptionCollisionMsg) := by
  obtain ⟨h1, _, h3, _, _⟩ := put_atomic true true (Except.ok ⟨"1.5", "grp", "text"⟩)
    (fun _ => Except.ok [⟨QuestionTypeVal.str "essay", "dup", "", ""⟩])
    ⟨[(1, ⟨QuestionTypeVal.mc, "dup", "1.5", ""⟩)], [], 2⟩
  obtain ⟨_, herr⟩ := h3 _ _ rfl rfl rfl rfl
  have hv := herr (by decide)
  have hw := h1 _ hv
  refine Prod.ext ?_ ?_
  · exact hw
  · rw [hv]
    decide

/-! ## Decomposition of the validator error lists -/

theorem appendIf (b : Prop) [Decidable b] (e : List String) (m : String) :
    (if b then e ++ [m] else e) = e ++ (if b then [m] else []) := by
  by_cases h : b <;> simp [h]

/-- Membership in a conditional singleton. -/
theorem mem_ite_singleton {b : Prop} [Decidable b] (m m' : String) :
    (m ∈ if b then [m'] else ([] : List String)) ↔ b ∧ m = m' := by
  by_cases h : b <;> simp [h]

/-- The error appended by the collision check, as a standalone list. -/
def collisionDelta (description key : String) (allQuestions : List StoredQuestion) :
    List String :=
  match collisionDescriptions allQuestions key with
  | none => []
  | some ds => if description ∈ ds then [descriptionCollisionMsg] else []

theorem collisionDescriptions_isSome (allQuestions : List StoredQuestion) (key : String)
    (hkey : key = "" ∨ (pyLong key).isSome = true) :
    ∃ ds, collisionDescriptions allQuestions key = some ds := by
  by_cases hke : key = ""
  · subst hke
    exact ⟨_, collisionDescriptions_empty_key allQuestions⟩
  · obtain ⟨k, hpl⟩ := Option.isSome_iff_exists.mp (hkey.resolve_left hke)
    exact ⟨_, collisionDescriptions_parsed_key allQuestions key k hke hpl⟩

theorem validate_no_description_collision_delta (description key : String)
    (errors : List String) (allQuestions : List StoredQuestion)
    (hkey : key = "" ∨ (pyLong key).isSome = true) :
    validate_no_description_collision description key errors allQuestions =
      some (errors ++ collisionDelta description key allQuestions) := by
  obtain ⟨ds, hds⟩ := collisionDescriptions_isSome allQuestions key hkey
  unfold validate_no_description_collision collisionDelta
  simp only [hds]
  rw [appendIf]

theorem mem_collisionDelta (msg description key : String) (allQuestions : List StoredQuestion)
    (h : msg ∈ collisionDelta description key allQuestions) :
    msg = descriptionCollisionMsg := by
  unfold collisionDelta at h
  cases hds : collisionDescriptions allQuestions key with
  | none => rw [hds] at h; cases h
  | some ds =>
    simp only [hds] at h
    by_cases hmem : description ∈ ds
    · rw [if_pos hmem] at h
      exact List.mem_singleton.mp h
    · rw [if_neg hmem] at h
      cases h

theorem collisionDelta_eq_nil (description key : String) (allQuestions : List StoredQuestion)
    (hkey : key = "" ∨ (pyLong key).isSome = true)
    (hnc : ¬ ∃ q ∈ allQuestions, q.description = description ∧
      (key = "" ∨ pyLong key ≠ some q.id)) :
    collisionDelta description key allQuestions = [] := by
  have h1 := validate_no_description_collision_spec description key [] allQuestions hkey
  have h2 := validate_no_description_collision_delta description key [] allQuestions hkey
  rw [h1, if_neg hnc] at h2
  simpa using (Option.some.inj h2).symm

theorem collisionDelta_eq_single (description key : String) (allQuestions : List StoredQuestion)
    (hkey : key = "" ∨ (pyLong key).isSome = true)
    (hc : ∃ q ∈ allQuestions, q.description = description ∧
      (key = "" ∨ pyLong key ≠ some q.id)) :
    collisionDelta description key allQuestions = [descriptionCollisionMsg] := by
  have h1 := validate_no_description_collision_spec description key [] allQuestions hkey
  have h2 := validate_no_description_collision_delta description key [] allQuestions hkey
  rw [h1, if_pos hc] at h2
  simpa using (Option.some.inj h2).symm

/-- The coercion the choice loop applies to one choice. -/
def mcCoerce (c : McChoice) : McChoiceCoerced :=
  match pyFloat c.score with
  | some v => ⟨SVal.num v, c.text, c.feedback⟩
  | none => ⟨SVal.str c.score, c.text, c.feedback⟩

/-- The errors one choice contributes, with its one-based number. -/
def mcChoiceDelta (c : McChoice) (n : Nat) : List String :=
  (if pyStrip c.text = "" then [choiceNoTextMsg n] else []) ++
    (if (pyFloat c.score).isSome = true then [] else [choiceScoreMsg n])

/-- The errors the whole choice loop contributes. -/
def mcChoicesDelta : List McChoice → Nat → List String
  | [], _ => []
  | c :: cs, n => mcChoiceDelta c n ++ mcChoicesDelta cs (n + 1)

theorem mcValidateChoices_eq : ∀ (cs : List McChoice) (n : Nat) (errors : List String),
    mcValidateChoices cs n errors = (cs.map mcCoerce, errors ++ mcChoicesDelta cs n) := by
  intro cs
  induction cs with
  | nil => intro n errors; simp [mcValidateChoices, mcChoicesDelta]
  | cons c cs ih =>
    intro n errors
    simp only [mcValidateChoices, mcChoicesDelta, List.map_cons]
    cases hf : pyFloat c.score with
    | some v =>
      simp only [hf, ih]
      rw [appendIf]
      simp [mcCoerce, hf, mcChoiceDelta, List.append_assoc]
    | none =>
      simp only [hf, ih]
      rw [appendIf]
      simp [mcCoerce, hf, mcChoiceDelta, List.append_assoc]

/-- The full error list mc_validate15 appends. -/
def mcDelta (d : McQuestionDict) (key : String) (allQuestions : List StoredQuestion) :
    List String :=
  (if pyStrip d.question = "" then [emptyBodyMsg] else []) ++
    ((if d.description = "" then [emptyDescriptionMsg] else []) ++
      (collisionDelta d.description key allQuestions ++
        ((if d.choices = [] then [noChoicesMsg] else []) ++ mcChoicesDelta d.choices 1)))

theorem mc_validate15_eq (d : McQuestionDict) (key : String) (errors : List String)
    (allQuestions : List StoredQuestion)
    (hkey : key = "" ∨ (pyLong key).isSome = true) :
    mc_validate15 d key errors allQuestions = some
      (⟨d.version, d.question, d.description, d.multiple_selections, d.choices.map mcCoerce⟩,
        errors ++ mcDelta d key allQuestions) := by
  have hcoll : ∀ e, validate_no_description_collision d.description key e allQuestions =
      some (e ++ collisionDelta d.description key allQuestions) :=
    fun e => validate_no_description_collision_delta d.description key e allQuestions hkey
  simp only [mc_validate15, appendIf, hcoll, mcValidateChoices_eq]
  simp [mcDelta, List.append_assoc]

/-! ## Distinguishing the emitted messages -/

theorem ne_of_head {s t : String} (h : s.data.head? ≠ t.data.head?) : s ≠ t :=
  fun he => h (by rw [he])

theorem choiceNoTextMsg_data (n : Nat) :
    (choiceNoTextMsg n).data =
      "Choice ".data ++ ((natStr n).data ++ " has no response text.".data) := by
  show (("Choice " ++ natStr n) ++ " has no response text.").data = _
  rw [data_append, data_append, List.append_assoc]

theorem choiceScoreMsg_data (n : Nat) :
    (choiceScoreMsg n).data =
      "Choice ".data ++ ((natStr n).data ++ " must have a numeric score.".data) := by
  show (("Choice " ++ natStr n) ++ " must have a numeric score.").data = _
  rw [data_append, data_append, List.append_assoc]

theorem answerNoTextMsg_data (n : Nat) :
    (answerNoTextMsg n).data =
      "Answer ".data ++ ((natStr n).data ++ " has no response text.".data) := by
  show (("Answer " ++ natStr n) ++ " has no response text.").data = _
  rw [data_append, data_append, List.append_assoc]

theorem answerScoreMsg_data (n : Nat) :
    (answerScoreMsg n).data =
      "Answer ".data ++ ((natStr n).data ++ " must have a numeric score.".data) := by
  show (("Answer " ++ natStr n) ++ " must have a numeric score.").data = _
  rw [data_append, data_append, List.append_assoc]

theorem choiceNoTextMsg_head (n : Nat) : (choiceNoTextMsg n).data.head? = some 'C' := by
  rw [choiceNoTextMsg_data]
  rfl

theorem choiceScoreMsg_head (n : Nat) : (choiceScoreMsg n).data.head? = some 'C' := by
  rw [choiceScoreMsg_data]
  rfl

theorem answerNoTextMsg_head (n : Nat) : (answerNoTextMsg n).data.head? = some 'A' := by
  rw [answerNoTextMsg_data]
  rfl

theorem answerScoreMsg_head (n : Nat) : (answerScoreMsg n).data.head? = some 'A' := by
  rw [answerScoreMsg_data]
  rfl

theorem choiceNoTextMsg_inj (m n : Nat) (h : choiceNoTextMsg m = choiceNoTextMsg n) :
    m = n := by
  have hd := congrArg String.data h
  rw [choiceNoTextMsg_data, choiceNoTextMsg_data] at hd
  have h1 := List.append_cancel_left hd
  have h2 := List.append_cancel_right h1
  exact natStr_inj m n (congrArg String.mk h2)

theorem choiceScoreMsg_inj (m n : Nat) (h : choiceScoreMsg m = choiceScoreMsg n) :
    m = n := by
  have hd := congrArg String.data h
  rw [choiceScoreMsg_data, choiceScoreMsg_data] at hd
  have h1 := List.append_cancel_left hd
  have h2 := List.append_cancel_right h1
  exact natStr_inj m n (congrArg String.mk h2)

theorem mem_x_choiceNoTextMsg (n : Nat) : 'x' ∈ (choiceNoTextMsg n).data := by
  rw [choiceNoTextMsg_data]
  exact List.mem_append_right _ (List.mem_append_right _ (by decide))

theorem not_mem_x_choiceScoreMsg (n : Nat) : 'x' ∉ (choiceScoreMsg n).data := by
  rw [choiceScoreMsg_data]
  intro h
  rcases List.mem_append.mp h with h | h
  · exact absurd h (by decide)
  · rcases List.mem_append.mp h with h | h
    · exact absurd (natStr_all_digits n 'x' h) (by decide)
    · exact absurd h (by decide)

theorem choiceNoTextMsg_ne_choiceScoreMsg (m n : Nat) :
    choiceNoTextMsg m ≠ choiceScoreMsg n := by
  intro h
  exact not_mem_x_choiceScoreMsg n (h ▸ mem_x_choiceNoTextMsg m)

/-! ## Membership in the choice-loop error list -/

theorem mem_mcChoicesDelta : ∀ (cs : List McChoice) (n : Nat) (msg : String),
    msg ∈ mcChoicesDelta cs n ↔
      ∃ i, ∃ h : i < cs.length, msg ∈ mcChoiceDelta (cs.get ⟨i, h⟩) (n + i) := by
  intro cs
  induction cs with
  | nil => intro n msg; simp [mcChoicesDelta]
  | cons c cs ih =>
    intro n msg
    simp only [mcChoicesDelta, List.mem_append, ih (n + 1), List.length_cons]
    constructor
    · rintro (h | ⟨i, hi, hmem⟩)
      · exact ⟨0, Nat.succ_pos _, by simpa using h⟩
      · refine ⟨i + 1, Nat.succ_lt_succ hi, ?_⟩
        have : n + (i + 1) = n + 1 + i := by omega
        rw [this]
        simpa using hmem
    · rintro ⟨i, hi, hmem⟩
      cases i with
      | zero => exact Or.inl (by simpa using hmem)
      | succ i =>
        refine Or.inr ⟨i, Nat.lt_of_succ_lt_succ hi, ?_⟩
        have : n + 1 + i = n + (i + 1) := by omega
        rw [this]
        simpa using hmem

theorem noText_mem_mcChoiceDelta (c : McChoice) (n k : Nat) :
    choiceNoTextMsg k ∈ mcChoiceDelta c n ↔ k = n ∧ pyStrip c.text = "" := by
  unfold mcChoiceDelta
  constructor
  · intro h
    rcases List.mem_append.mp h with h1 | h1
    · by_cases ht : pyStrip c.text = ""
      · rw [if_pos ht] at h1
        exact ⟨choiceNoTextMsg_inj _ _ (List.mem_singleton.mp h1), ht⟩
      · rw [if_neg ht] at h1
        cases h1
    · by_cases hs : (pyFloat c.score).isSome = true
      · rw [if_pos hs] at h1
        cases h1
      · rw [if_neg hs] at h1
        exact absurd (List.mem_singleton.mp h1) (choiceNoTextMsg_ne_choiceScoreMsg k n)
  · rintro ⟨rfl, ht⟩
    exact List.mem_append.mpr (Or.inl (by rw [if_pos ht]; exact List.mem_singleton.mpr rfl))

theorem mem_mcChoiceDelta_cases (c : McChoice) (n : Nat) (msg : String)
    (h : msg ∈ mcChoiceDelta c n) : msg = choiceNoTextMsg n ∨ msg = choiceScoreMsg n := by
  unfold mcChoiceDelta at h
  rcases List.mem_append.mp h with h1 | h1
  · by_cases ht : pyStrip c.text = ""
    · rw [if_pos ht] at h1
      exact Or.inl (List.mem_singleton.mp h1)
    · rw [if_neg ht] at h1
      cases h1
  · by_cases hs : (pyFloat c.score).isSome = true
    · rw [if_pos hs] at h1
      cases h1
    · rw [if_neg hs] at h1
      exact Or.inr (List.mem_singleton.mp h1)

theorem mcChoicesDelta_nil : ∀ (cs : List McChoice) (n : Nat),
    (∀ c ∈ cs, pyStrip c.text ≠ "" ∧ (pyFloat c.score).isSome = true) →
    mcChoicesDelta cs n = [] := by
  intro cs
  induction cs with
  | nil => intro n _; rfl
  | cons c cs ih =>
    intro n h
    obtain ⟨ht, hs⟩ := h c (List.mem_cons_self c cs)
    simp only [mcChoicesDelta, mcChoiceDelta, if_neg ht, if_pos hs]
    simpa using ih (n + 1) (fun c' hc' => h c' (List.mem_cons_of_mem c hc'))

/-! ## C5: score coercion in the choice loop -/

/-- C5: for every choice, a score string that float() accepts is coerced
in place to that float, and a score string that float() rejects leaves
the field as the original string and appends the numeric-score error
numbered index plus one. -/
theorem mc_validate15_score_coercion (d : McQuestionDict) (key : String)
    (errors : List String) (allQuestions : List StoredQuestion)
    (hkey : key = "" ∨ (pyLong key).isSome = true) :
    ∃ out errs, mc_validate15 d key errors allQuestions = some (out, errs) ∧
      out.choices.length = d.choices.length ∧
      ∀ i : Nat, ∀ h : i < d.choices.length,
        match pyFloat (d.choices[i].score) with
        | some v =>
            out.choices[i]? = some ⟨SVal.num v, d.choices[i].text, d.choices[i].feedback⟩
        | none =>
            out.choices[i]? =
              some ⟨SVal.str (d.choices[i].score), d.choices[i].text, d.choices[i].feedback⟩ ∧
            choiceScoreMsg (i + 1) ∈ errs := by
  refine ⟨_, _, mc_validate15_eq d key errors allQuestions hkey, by simp, ?_⟩
  intro i h
  have hmap : (d.choices.map mcCoerce)[i]? = some (mcCoerce d.choices[i]) := by
    rw [List.getElem?_map, List.getElem?_eq_getElem h]
    rfl
  cases hf : pyFloat (d.choices[i].score) with
  | some v =>
    simp only []
    rw [hmap]
    simp [mcCoerce, hf]
  | none =>
    simp only []
    refine ⟨by rw [hmap]; simp [mcCoerce, hf], ?_⟩
    refine List.mem_append_right _ ?_
    unfold mcDelta
    refine List.mem_append_right _ (List.mem_append_right _ (List.mem_append_right _
      (List.mem_append_right _ ?_)))
    rw [mem_mcChoicesDelta]
    refine ⟨i, h, ?_⟩
    unfold mcChoiceDelta
    refine List.mem_append_right _ ?_
    rw [if_neg (by simp [hf])]
    have hco : 1 + i = i + 1 := Nat.add_comm 1 i
    rw [hco]
    exact List.mem_singleton.mpr rfl

/-- Witness for C5 at a one-choice question with a non-numeric score. -/
theorem mc_validate15_score_coercion_witness :
    ∃ out errs,
      mc_validate15 ⟨"1.5", "q", "desc", false, [⟨"abc", "t", "f"⟩]⟩ "" [] [] =
        some (out, errs) ∧
      out.choices.length = ([⟨"abc", "t", "f"⟩] : List McChoice).length ∧
      ∀ i : Nat, ∀ h : i < ([⟨"abc", "t", "f"⟩] : List McChoice).length,
        match pyFloat (([⟨"abc", "t", "f"⟩] : List McChoice)[i].score) with
        | some v =>
            out.choices[i]? = some ⟨SVal.num v, ([⟨"abc", "t", "f"⟩] : List McChoice)[i].text,
              ([⟨"abc", "t", "f"⟩] : List McChoice)[i].feedback⟩
        | none =>
            out.choices[i]? = some ⟨SVal.str (([⟨"abc", "t", "f"⟩] : List McChoice)[i].score),
              ([⟨"abc", "t", "f"⟩] : List McChoice)[i].text,
              ([⟨"abc", "t", "f"⟩] : List McChoice)[i].feedback⟩ ∧
            choiceScoreMsg (i + 1) ∈ errs :=
  mc_validate15_score_coercion ⟨"1.5", "q", "desc", false, [⟨"abc", "t", "f"⟩]⟩ "" [] []
    (Or.inl rfl)

/-! ## C7: the multiple-choice validation conditions -/

/-- C7: starting from an empty error list, mc_validate15 reports the
empty-body error exactly when the stripped question is empty, the
empty-description error exactly when the description is empty, the
no-choices error exactly when the choices list is empty, and the
numbered no-response-text error exactly for the choices whose stripped
text is empty; a dict passing all checks, with numeric scores and no
description collision, produces no errors. -/
theorem mc_validate15_checks (d : McQuestionDict) (key : String)
    (allQuestions : List StoredQuestion)
    (hkey : key = "" ∨ (pyLong key).isSome = true) :
    ∃ out errs, mc_validate15 d key [] allQuestions = some (out, errs) ∧
      (emptyBodyMsg ∈ errs ↔ pyStrip d.question = "") ∧
      (emptyDescriptionMsg ∈ errs ↔ d.description = "") ∧
      (noChoicesMsg ∈ errs ↔ d.choices = []) ∧
      (∀ i : Nat, ∀ h : i < d.choices.length,
        (choiceNoTextMsg (i + 1) ∈ errs ↔ pyStrip (d.choices[i].text) = "")) ∧
      ((pyStrip d.question ≠ "" ∧ d.description ≠ "" ∧ d.choices ≠ [] ∧
          (∀ c ∈ d.choices, pyStrip c.text ≠ "" ∧ (pyFloat c.score).isSome = true) ∧
          ¬ ∃ q ∈ allQuestions, q.description = d.description ∧
            (key = "" ∨ pyLong key ≠ some q.id))
        → errs = []) := by
  refine ⟨_, _, mc_validate15_eq d key [] allQuestions hkey, ?_, ?_, ?_, ?_, ?_⟩
  case _ =>
    simp only [List.nil_append, mcDelta, List.mem_append]
    constructor
    · rintro (h | h | h | h | h)
      · exact ((mem_ite_singleton _ _).mp h).1
      · exact absurd ((mem_ite_singleton _ _).mp h).2 (by decide)
      · exact absurd (mem_collisionDelta _ _ _ _ h) (by decide)
      · exact absurd ((mem_ite_singleton _ _).mp h).2 (by decide)
      · obtain ⟨i, hi, hmem⟩ := (mem_mcChoicesDelta _ _ _).mp h
        rcases mem_mcChoiceDelta_cases _ _ _ hmem with h1 | h1
        · exact absurd h1.symm (ne_of_head (by rw [choiceNoTextMsg_head]; decide))
        · exact absurd h1.symm (ne_of_head (by rw [choiceScoreMsg_head]; decide))
    · intro hb
      exact Or.inl ((mem_ite_singleton _ _).mpr ⟨hb, rfl⟩)
  case _ =>
    simp only [List.nil_append, mcDelta, List.mem_append]
    constructor
    · rintro (h | h | h | h | h)
      · exact absurd ((mem_ite_singleton _ _).mp h).2 (by decide)
      · exact ((mem_ite_singleton _ _).mp h).1
      · exact absurd (mem_collisionDelta _ _ _ _ h) (by decide)
      · exact absurd ((mem_ite_singleton _ _).mp h).2 (by decide)
      · obtain ⟨i, hi, hmem⟩ := (mem_mcChoicesDelta _ _ _).mp h
        rcases mem_mcChoiceDelta_cases _ _ _ hmem with h1 | h1
        · exact absurd h1.symm (ne_of_head (by rw [choiceNoTextMsg_head]; decide))
        · exact absurd h1.symm (ne_of_head (by rw [choiceScoreMsg_head]; decide))
    · intro hd
      exact Or.inr (Or.inl ((mem_ite_singleton _ _).mpr ⟨hd, rfl⟩))
  case _ =>
    simp only [List.nil_append, mcDelta, List.mem_append]
    constructor
    · rintro (h | h | h | h | h)
      · exact absurd ((mem_ite_singleton _ _).mp h).2 (by decide)
      · exact absurd ((mem_ite_singleton _ _).mp h).2 (by decide)
      · exact absurd (mem_collisionDelta _ _ _ _ h) (by decide)
      · exact ((mem_ite_singleton _ _).mp h).1
      · obtain ⟨i, hi, hmem⟩ := (mem_mcChoicesDelta _ _ _).mp h
        rcases mem_mcChoiceDelta_cases _ _ _ hmem with h1 | h1
        · exact absurd h1.symm (ne_of_head (by rw [choiceNoTextMsg_head]; decide))
        · exact absurd h1.symm (ne_of_head (by rw [choiceScoreMsg_head]; decide))
    · intro hc
      exact Or.inr (Or.inr (Or.inr (Or.inl ((mem_ite_singleton _ _).mpr ⟨hc, rfl⟩))))
  case _ =>
    intro i h
    simp only [List.nil_append, mcDelta, List.mem_append]
    constructor
    · rintro (h1 | h1 | h1 | h1 | h1)
      · exact absurd ((mem_ite_singleton _ _).mp h1).2
          (ne_of_head (by rw [choiceNoTextMsg_head]; decide))
      · exact absurd ((mem_ite_singleton _ _).mp h1).2
          (ne_of_head (by rw [choiceNoTextMsg_head]; decide))
      · exact absurd (mem_collisionDelta _ _ _ _ h1)
          (ne_of_head (by rw [choiceNoTextMsg_head]; decide))
      · exact absurd ((mem_ite_singleton _ _).mp h1).2
          (ne_of_head (by rw [choiceNoTextMsg_head]; decide))
      · obtain ⟨j, hj, hmem⟩ := (mem_mcChoicesDelta _ _ _).mp h1
        rw [noText_mem_mcChoiceDelta] at hmem
        obtain ⟨hkeq, htext⟩ := hmem
        have hji : j = i := by omega
        subst hji
        exact htext
    · intro ht
      refine Or.inr (Or.inr (Or.inr (Or.inr ?_)))
      rw [mem_mcChoicesDelta]
      exact ⟨i, h, (noText_mem_mcChoiceDelta _ _ _).mpr ⟨by omega, ht⟩⟩
  case _ =>
    rintro ⟨hb, hd, hc, hall, hnc⟩
    show ([] : List String) ++ mcDelta d key allQuestions = []
    rw [List.nil_append]
    unfold mcDelta
    rw [if_neg hb, if_neg hd, if_neg hc, collisionDelta_eq_nil _ _ _ hkey hnc,
      mcChoicesDelta_nil _ _ hall]
    rfl

/-- Witness for C7 at a well-formed one-choice question. -/
theorem mc_validate15_checks_witness :
    ∃ out errs, mc_validate15 ⟨"1.5", "q", "desc", false, [⟨"1", "t", "f"⟩]⟩ "" [] [] =
        some (out, errs) ∧
      (emptyBodyMsg ∈ errs ↔ pyStrip "q" = "") ∧
      (emptyDescriptionMsg ∈ errs ↔ ("desc" : String) = "") ∧
      (noChoicesMsg ∈ errs ↔ ([⟨"1", "t", "f"⟩] : List McChoice) = []) ∧
      (∀ i : Nat, ∀ h : i < ([⟨"1", "t", "f"⟩] : List McChoice).length,
        (choiceNoTextMsg (i + 1) ∈ errs ↔
          pyStrip (([⟨"1", "t", "f"⟩] : List McChoice)[i].text) = "")) ∧
      ((pyStrip "q" ≠ "" ∧ ("desc" : String) ≠ "" ∧
          ([⟨"1", "t", "f"⟩] : List McChoice) ≠ [] ∧
          (∀ c ∈ ([⟨"1", "t", "f"⟩] : List McChoice),
            pyStrip c.text ≠ "" ∧ (pyFloat c.score).isSome = true) ∧
          ¬ ∃ q ∈ ([] : List StoredQuestion), q.description = "desc" ∧
            (("" : String) = "" ∨ pyLong "" ≠ some q.id))
        → errs = []) :=
  mc_validate15_checks ⟨"1.5", "q", "desc", false, [⟨"1", "t", "f"⟩]⟩ "" [] (Or.inl rfl)

/-! ## Decomposition of the short-answer validator -/

/-- The errors the grader loop contributes when every matcher is valid. -/
def saGradersDelta : List SaGrader → Nat → List String
  | [], _ => []
  | g :: gs, n =>
    ((if pyStrip g.response = "" then [answerNoTextMsg n] else []) ++
      (if (pyFloat g.score).isSome = true then [] else [answerScoreMsg n])) ++
      saGradersDelta gs (n + 1)

theorem saValidateGraders_eq : ∀ (gs : List SaGrader) (n : Nat) (errors : List String),
    (∀ g ∈ gs, g.matcher ∈ GRADER_TYPES.map Prod.fst) →
    saValidateGraders gs n errors = some (errors ++ saGradersDelta gs n) := by
  intro gs
  induction gs with
  | nil => intro n errors _; simp [saValidateGraders, saGradersDelta]
  | cons g gs ih =>
    intro n errors hm
    have hg := hm g (List.mem_cons_self g gs)
    simp only [saValidateGraders, if_pos hg]
    cases hf : pyFloat g.score with
    | some v =>
      simp only [hf]
      rw [ih (n + 1) _ (fun g' h' => hm g' (List.mem_cons_of_mem g h'))]
      simp [saGradersDelta, appendIf, hf, List.append_assoc]
    | none =>
      simp only [hf]
      rw [ih (n + 1) _ (fun g' h' => hm g' (List.mem_cons_of_mem g h'))]
      simp [saGradersDelta, appendIf, hf, List.append_assoc]

theorem mem_saGradersDelta_cases : ∀ (gs : List SaGrader) (n : Nat) (msg : String),
    msg ∈ saGradersDelta gs n → ∃ k, msg = answerNoTextMsg k ∨ msg = answerScoreMsg k := by
  intro gs
  induction gs with
  | nil => intro n msg h; cases h
  | cons g gs ih =>
    intro n msg h
    simp only [saGradersDelta] at h
    rcases List.mem_append.mp h with h1 | h1
    · rcases List.mem_append.mp h1 with h2 | h2
      · by_cases ht : pyStrip g.response = ""
        · rw [if_pos ht] at h2
          exact ⟨n, Or.inl (List.mem_singleton.mp h2)⟩
        · rw [if_neg ht] at h2
          cases h2
      · by_cases hs : (pyFloat g.score).isSome = true
        · rw [if_pos hs] at h2
          cases h2
        · rw [if_neg hs] at h2
          exact ⟨n, Or.inr (List.mem_singleton.mp h2)⟩
    · exact ih (n + 1) msg h1

/-- The coerced rows field. -/
def saRows (d : SaQuestionDict) : IVal :=
  match pyInt d.rows with
  | some r => IVal.int r
  | none => IVal.str d.rows

/-- The coerced columns field. -/
def saCols (d : SaQuestionDict) : IVal :=
  match pyInt d.columns with
  | some r => IVal.int r
  | none => IVal.str d.columns

/-- The errors the rows coercion contributes. -/
def saRowsDelta (d : SaQuestionDict) : List String :=
  match pyInt d.rows with
  | some r => if r ≤ 0 then [rowsPositiveMsg] else []
  | none => [rowsWholeMsg]

/-- The errors the columns coercion contributes. -/
def saColsDelta (d : SaQuestionDict) : List String :=
  match pyInt d.columns with
  | some r => if r ≤ 0 then [columnsPositiveMsg] else []
  | none => [columnsWholeMsg]

/-- The full error list sa_validate15 appends. -/
def saDelta (d : SaQuestionDict) (key : String) (allQuestions : List StoredQuestion) :
    List String :=
  (if pyStrip d.question = "" then [emptyBodyMsg] else []) ++
    ((if d.description = "" then [emptyDescriptionMsg] else []) ++
      (collisionDelta d.description key allQuestions ++
        (saRowsDelta d ++
          (saColsDelta d ++
            ((if d.graders = [] then [noAnswersMsg] else []) ++
              saGradersDelta d.graders 1)))))

theorem sa_validate15_eq (d : SaQuestionDict) (key : String) (errors : List String)
    (allQuestions : List StoredQuestion)
    (hkey : key = "" ∨ (pyLong key).isSome = true)
    (hmatch : ∀ g ∈ d.graders, g.matcher ∈ GRADER_TYPES.map Prod.fst) :
    sa_validate15 d key errors allQuestions = some
      (⟨d.version, d.question, d.description, d.hint, d.defaultFeedback,
        saRows d, saCols d, d.graders⟩,
        errors ++ saDelta d key allQuestions) := by
  have hcoll : ∀ e, validate_no_description_collision d.description key e allQuestions =
      some (e ++ collisionDelta d.description key allQuestions) :=
    fun e => validate_no_description_collision_delta d.description key e allQuestions hkey
  have hgr : ∀ e, saValidateGraders d.graders 1 e = some (e ++ saGradersDelta d.graders 1) :=
    fun e => saValidateGraders_eq d.graders 1 e hmatch
  simp only [sa_validate15, appendIf, hcoll, hgr]
  cases hr : pyInt d.rows with
  | some r =>
    cases hc : pyInt d.columns with
    | some c =>
      simp [saDelta, saRows, saCols, saRowsDelta, saColsDelta, hr, hc, appendIf,
        List.append_assoc]
    | none =>
      simp [saDelta, saRows, saCols, saRowsDelta, saColsDelta, hr, hc, appendIf,
        List.append_assoc]
  | none =>
    cases hc : pyInt d.columns with
    | some c =>
      simp [saDelta, saRows, saCols, saRowsDelta, saColsDelta, hr, hc, appendIf,
        List.append_assoc]
    | none =>
      simp [saDelta, saRows, saCols, saRowsDelta, saColsDelta, hr, hc, appendIf,
        List.append_assoc]

theorem mem_saRowsDelta_cases (d : SaQuestionDict) (msg : String)
    (h : msg ∈ saRowsDelta d) : msg = rowsWholeMsg ∨ msg = rowsPositiveMsg := by
  unfold saRowsDelta at h
  cases hpi : pyInt d.rows with
  | none =>
    simp only [hpi] at h
    exact Or.inl (List.mem_singleton.mp h)
  | some r =>
    simp only [hpi] at h
    by_cases hle : r ≤ 0
    · rw [if_pos hle] at h
      exact Or.inr (List.mem_singleton.mp h)
    · rw [if_neg hle] at h
      cases h

theorem mem_saColsDelta_cases (d : SaQuestionDict) (msg : String)
    (h : msg ∈ saColsDelta d) : msg = columnsWholeMsg ∨ msg = columnsPositiveMsg := by
  unfold saColsDelta at h
  cases hpi : pyInt d.columns with
  | none =>
    simp only [hpi] at h
    exact Or.inl (List.mem_singleton.mp h)
  | some r =>
    simp only [hpi] at h
    by_cases hle : r ≤ 0
    · rw [if_pos hle] at h
      exact Or.inr (List.mem_singleton.mp h)
    · rw [if_neg hle] at h
      cases h

theorem saDelta_mem_dims (d : SaQuestionDict) (key : String)
    (allQuestions : List StoredQuestion) (msg : String)
    (h : msg ∈ saDelta d key allQuestions)
    (h1 : msg ≠ emptyBodyMsg) (h2 : msg ≠ emptyDescriptionMsg)
    (h3 : msg ≠ descriptionCollisionMsg) (h4 : msg ≠ noAnswersMsg)
    (h5 : ∀ k, msg ≠ answerNoTextMsg k) (h6 : ∀ k, msg ≠ answerScoreMsg k) :
    msg ∈ saRowsDelta d ∨ msg ∈ saColsDelta d := by
  simp only [saDelta, List.mem_append] at h
  rcases h with h | h | h | h | h | h | h
  · exact absurd ((mem_ite_singleton _ _).mp h).2 h1
  · exact absurd ((mem_ite_singleton _ _).mp h).2 h2
  · exact absurd (mem_collisionDelta _ _ _ _ h) h3
  · exact Or.inl h
  · exact Or.inr h
  · exact absurd ((mem_ite_singleton _ _).mp h).2 h4
  · obtain ⟨k, hk | hk⟩ := mem_saGradersDelta_cases _ _ _ h
    · exact absurd hk (h5 k)
    · exact absurd hk (h6 k)

theorem saRowsDelta_mem_saDelta (d : SaQuestionDict) (key : String)
    (allQuestions : List StoredQuestion) (msg : String) (h : msg ∈ saRowsDelta d) :
    msg ∈ saDelta d key allQuestions := by
  simp only [saDelta, List.mem_append]
  exact Or.inr (Or.inr (Or.inr (Or.inl h)))

theorem saColsDelta_mem_saDelta (d : SaQuestionDict) (key : String)
    (allQuestions : List StoredQuestion) (msg : String) (h : msg ∈ saColsDelta d) :
    msg ∈ saDelta d key allQuestions := by
  simp only [saDelta, List.mem_append]
  exact Or.inr (Or.inr (Or.inr (Or.inr (Or.inl h))))

/-! ## C6: rows and columns coercion -/

/-- C6: sa_validate15 coerces the rows and columns strings in place to
integers; a string int() rejects leaves the field as the submitted
string and appends the whole-number error, a parsed value at most zero
appends the positive-whole-number error, and a positive integer string
contributes no error for that field. -/
theorem sa_validate15_dimensions (d : SaQuestionDict) (key : String)
    (allQuestions : List StoredQuestion)
    (hkey : key = "" ∨ (pyLong key).isSome = true)
    (hmatch : ∀ g ∈ d.graders, g.matcher ∈ GRADER_TYPES.map Prod.fst) :
    ∃ out errs, sa_validate15 d key [] allQuestions = some (out, errs) ∧
      (match pyInt d.rows with
       | some r => out.rows = IVal.int r ∧ rowsWholeMsg ∉ errs ∧
           (rowsPositiveMsg ∈ errs ↔ r ≤ 0)
       | none => out.rows = IVal.str d.rows ∧ rowsWholeMsg ∈ errs ∧
           rowsPositiveMsg ∉ errs) ∧
      (match pyInt d.columns with
       | some r => out.columns = IVal.int r ∧ columnsWholeMsg ∉ errs ∧
           (columnsPositiveMsg ∈ errs ↔ r ≤ 0)
       | none => out.columns = IVal.str d.columns ∧ columnsWholeMsg ∈ errs ∧
           columnsPositiveMsg ∉ errs) := by
  refine ⟨_, _, sa_validate15_eq d key [] allQuestions hkey hmatch, ?_, ?_⟩
  · cases hr : pyInt d.rows with
    | some r =>
      refine ⟨by simp [saRows, hr], ?_, ?_⟩
      · intro hmem
        rw [List.nil_append] at hmem
        rcases saDelta_mem_dims d key allQuestions rowsWholeMsg hmem (by decide) (by decide)
          (by decide) (by decide)
          (fun k => ne_of_head (by rw [answerNoTextMsg_head]; decide))
          (fun k => ne_of_head (by rw [answerScoreMsg_head]; decide)) with h | h
        · unfold saRowsDelta at h
          simp only [hr] at h
          by_cases hle : r ≤ 0
          · rw [if_pos hle] at h
            exact absurd (List.mem_singleton.mp h) (by decide)
          · rw [if_neg hle] at h
            cases h
        · rcases mem_saColsDelta_cases d _ h with h | h <;> exact absurd h (by decide)
      · constructor
        · intro hmem
          rw [List.nil_append] at hmem
          rcases saDelta_mem_dims d key allQuestions rowsPositiveMsg hmem (by decide)
            (by decide) (by decide) (by decide)
            (fun k => ne_of_head (by rw [answerNoTextMsg_head]; decide))
            (fun k => ne_of_head (by rw [answerScoreMsg_head]; decide)) with h | h
          · unfold saRowsDelta at h
            simp only [hr] at h
            by_cases hle : r ≤ 0
            · exact hle
            · rw [if_neg hle] at h
              cases h
          · rcases mem_saColsDelta_cases d _ h with h | h <;> exact absurd h (by decide)
        · intro hle
          rw [List.nil_append]
          refine saRowsDelta_mem_saDelta _ _ _ _ ?_
          unfold saRowsDelta
          simp only [hr]
          rw [if_pos hle]
          exact List.mem_singleton.mpr rfl
    | none =>
      refine ⟨by simp [saRows, hr], ?_, ?_⟩
      · rw [List.nil_append]
        refine saRowsDelta_mem_saDelta _ _ _ _ ?_
        unfold saRowsDelta
        simp only [hr]
        exact List.mem_singleton.mpr rfl
      · intro hmem
        rw [List.nil_append] at hmem
        rcases saDelta_mem_dims d key allQuestions rowsPositiveMsg hmem (by decide) (by decide)
          (by decide) (by decide)
          (fun k => ne_of_head (by rw [answerNoTextMsg_head]; decide))
          (fun k => ne_of_head (by rw [answerScoreMsg_head]; decide)) with h | h
        · unfold saRowsDelta at h
          simp only [hr] at h
          exact absurd (List.mem_singleton.mp h) (by decide)
        · rcases mem_saColsDelta_cases d _ h with h | h <;> exact absurd h (by decide)
  · cases hc : pyInt d.columns with
    | some r =>
      refine ⟨by simp [saCols, hc], ?_, ?_⟩
      · intro hmem
        rw [List.nil_append] at hmem
        rcases saDelta_mem_dims d key allQuestions columnsWholeMsg hmem (by decide) (by decide)
          (by decide) (by decide)
          (fun k => ne_of_head (by rw [answerNoTextMsg_head]; decide))
          (fun k => ne_of_head (by rw [answerScoreMsg_head]; decide)) with h | h
        · rcases mem_saRowsDelta_cases d _ h with h | h <;> exact absurd h (by decide)
        · unfold saColsDelta at h
          simp only [hc] at h
          by_cases hle : r ≤ 0
          · rw [if_pos hle] at h
            exact absurd (List.mem_singleton.mp h) (by decide)
          · rw [if_neg hle] at h
            cases h
      · constructor
        · intro hmem
          rw [List.nil_append] at hmem
          rcases saDelta_mem_dims d key allQuestions columnsPositiveMsg hmem (by decide)
            (by decide) (by decide) (by decide)
            (fun k => ne_of_head (by rw [answerNoTextMsg_head]; decide))
            (fun k => ne_of_head (by rw [answerScoreMsg_head]; decide)) with h | h
          · rcases mem_saRowsDelta_cases d _ h with h | h <;> exact absurd h (by decide)
          · unfold saColsDelta at h
            simp only [hc] at h
            by_cases hle : r ≤ 0
            · exact hle
            · rw [if_neg hle] at h
              cases h
        · intro hle
          rw [List.nil_append]
          refine saColsDelta_mem_saDelta _ _ _ _ ?_
          unfold saColsDelta
          simp only [hc]
          rw [if_pos hle]
          exact List.mem_singleton.mpr rfl
    | none =>
      refine ⟨by simp [saCols, hc], ?_, ?_⟩
      · rw [List.nil_append]
        refine saColsDelta_mem_saDelta _ _ _ _ ?_
        unfold saColsDelta
        simp only [hc]
        exact List.mem_singleton.mpr rfl
      · intro hmem
        rw [List.nil_append] at hmem
        rcases saDelta_mem_dims d key allQuestions columnsPositiveMsg hmem (by decide)
          (by decide) (by decide) (by decide)
          (fun k => ne_of_head (by rw [answerNoTextMsg_head]; decide))
          (fun k => ne_of_head (by rw [answerScoreMsg_head]; decide)) with h | h
        · rcases mem_saRowsDelta_cases d _ h with h | h <;> exact absurd h (by decide)
        · unfold saColsDelta at h
          simp only [hc] at h
          exact absurd (List.mem_singleton.mp h) (by decide)

/-- Witness for C6 at a grader with a valid matcher, non-numeric rows
and positive columns. -/
theorem sa_validate15_dimensions_witness :
    ∃ out errs,
      sa_validate15 ⟨"1.5", "q", "desc", "", "", "abc", "80",
          [⟨"1.0", "case_insensitive", "r", "f"⟩]⟩ "" [] [] = some (out, errs) ∧
      (match pyInt "abc" with
       | some r => out.rows = IVal.int r ∧ rowsWholeMsg ∉ errs ∧
           (rowsPositiveMsg ∈ errs ↔ r ≤ 0)
       | none => out.rows = IVal.str "abc" ∧ rowsWholeMsg ∈ errs ∧
           rowsPositiveMsg ∉ errs) ∧
      (match pyInt "80" with
       | some r => out.columns = IVal.int r ∧ columnsWholeMsg ∉ errs ∧
           (columnsPositiveMsg ∈ errs ↔ r ≤ 0)
       | none => out.columns = IVal.str "80" ∧ columnsWholeMsg ∈ errs ∧
           columnsPositiveMsg ∉ errs) :=
  sa_validate15_dimensions
    ⟨"1.5", "q", "desc", "", "", "abc", "80", [⟨"1.0", "case_insensitive", "r", "f"⟩]⟩
    "" [] (Or.inl rfl) (by decide)

end QuestionEditor
